import Mathlib

/-!
Shallow embedding of the Vector Store subsystem of VectorDB-Manager
(src/main/services/vector-store.ts), together with the pieces of its
collaborators that the verified properties need.

Conventions:
* Scores and cosine distances are rationals (ℚ); the TS code uses JS
  numbers but no claim here depends on floating-point rounding.
* External collaborators (HNSW k-NN queries, the embedding model, the
  document processors, `db.getDocument`) are parameters of the model:
  they are inputs the orchestrator consumes, exactly as in the source.
* A TS call that can throw is modelled as an `Option`/`Except` value or
  a success flag in the environment; `none` / `false` means "throws".
* `this.initialized` is modelled as the field `ready`.
-/

namespace VectorDB

/-- A row of the `documents` table as read back by `db.getDocument`
(fields used by `VectorStore.search` lines 268-277). -/
structure DocRow where
  content : String
  source : String
  type : String
  title : Option String
  category : Option String
  contentHash : String
  deriving DecidableEq, Repr

/-- `SearchResult` (vector-store.ts lines 16-22); `confidence` is the
similarity score `1 - distance`. -/
structure SearchResult where
  content : String
  confidence : ℚ
  fileType : String
  location : String
  context : String
  deriving DecidableEq, Repr

/-- `SearchOptions` (vector-store.ts lines 10-14); absent fields take the
defaults at lines 244-248 (`limit = 10`, `minScore = 0.4`). -/
structure SearchOptions where
  limit : Option Nat := none
  minScore : Option ℚ := none
  includeVectors : Option Bool := none
  deriving Repr

/-- Vector-store state: the `initialized` flag (modelled as `ready`),
the points held by the HNSW index (`getCurrentCount` is the length of
`indexPoints`), the metadata rows, and the next document id the
metadata store will assign. -/
structure VSState where
  ready : Bool
  indexPoints : List (Nat × List ℚ)
  docs : List (Nat × DocRow)
  nextId : Nat
  deriving DecidableEq, Repr

/-- Errors `initialize()` can propagate (vector-store.ts lines 102-105
rethrow any failure of database init or embedder construction). -/
inductive InitErr where
  | dbInit
  | embedderLoad
  deriving DecidableEq, Repr

/-- Environment consumed by `initialize()` (vector-store.ts lines
65-106): whether `db.initialize()` and the transformers pipeline
succeed, whether a persisted index file exists, whether `readIndex`
succeeds on it, and the points it holds when it loads. -/
structure InitEnv where
  dbInitOk : Bool
  embedderLoadOk : Bool
  indexFileExists : Bool
  indexLoadOk : Bool
  loadedPoints : List (Nat × List ℚ)
  deriving Repr

/-- `VectorStore.initialize` (vector-store.ts lines 65-106).  Returns
the resulting state together with a flag recording whether the
`console.warn` recovery path of lines 87-93 ran (persisted index file
present but `readIndex` threw: the file is unlinked and a fresh empty
index is created).  Database-init or embedder-load failures are
rethrown (lines 102-105). -/
def initStore (env : InitEnv) (st : VSState) : Except InitErr (VSState × Bool) :=
  if st.ready then .ok (st, false)
  else if env.dbInitOk = false then .error .dbInit
  else if env.embedderLoadOk = false then .error .embedderLoad
  else
    let pointsWarn :=
      if env.indexFileExists then
        if env.indexLoadOk then (env.loadedPoints, false)
        else (([] : List (Nat × List ℚ)), true)
      else (([] : List (Nat × List ℚ)), false)
    .ok ({ st with ready := true, indexPoints := pointsWarn.1 }, pointsWarn.2)

/-- Errors `search` can propagate.  `notInitialized` is the
`NotInitializedError` the specification names; it is listed so that the
property "fails with NotInitializedError" is statable. -/
inductive SearchErr where
  | initFailed (e : InitErr)
  | embedFailed
  | notInitialized
  deriving DecidableEq, Repr

/-- Environment consumed by `search` (vector-store.ts lines 239-287):
the query embedding (`none` models `generateEmbedding` throwing), the
HNSW `searchKnn` reply for a requested neighbour count, and
`db.getDocument`. -/
structure SearchEnv where
  embedQuery : Option (List ℚ)
  knn : Nat → List (Nat × ℚ)
  getDoc : Nat → Option DocRow

/-- Result of one `search` call, together with the number of times the
embedding model was invoked during the call. -/
structure SearchRun where
  result : Except SearchErr (List SearchResult)
  embedCalls : Nat
  deriving Repr

/-- The result-processing loop of `search` (vector-store.ts lines
261-280): for each neighbour `(docId, distance)` in order, compute
`score = 1 - distance`; skip it when `score < minScore` or when
`db.getDocument` finds no row; otherwise push the hydrated result and
stop as soon as `limit` results have been collected. -/
def collectResults (getDoc : Nat → Option DocRow) (minScore : ℚ)
    (ns : List (Nat × ℚ)) (limit : Nat) : List SearchResult :=
  match ns with
  | [] => []
  | (docId, dist) :: rest =>
    let score := 1 - dist
    if score < minScore then collectResults getDoc minScore rest limit
    else
      match getDoc docId with
      | none => collectResults getDoc minScore rest limit
      | some doc =>
        let r : SearchResult :=
          { content := doc.content
            confidence := score
            fileType := doc.type
            location := doc.source
            context := doc.title.getD "" }
        if limit ≤ 1 then [r]
        else r :: collectResults getDoc minScore rest (limit - 1)
  termination_by structural ns

/-- `VectorStore.search` given an already-initialized store
(vector-store.ts lines 244-286).  Faithful to the source order: the
query embedding is generated first (line 252); only then is
`numElements = min(limit * 2, getCurrentCount())` computed and the
empty case short-circuited (lines 255-256); errors are rethrown
(line 285). -/
def searchCore (env : SearchEnv) (st : VSState) (opts : SearchOptions) : SearchRun :=
  let limit := opts.limit.getD 10
  let minScore := opts.minScore.getD (2 / 5 : ℚ)
  match env.embedQuery with
  | none => { result := .error .embedFailed, embedCalls := 1 }
  | some _ =>
    let numElements := Nat.min (limit * 2) st.indexPoints.length
    if numElements = 0 then { result := .ok [], embedCalls := 1 }
    else
      { result := .ok (collectResults env.getDoc minScore (env.knn numElements) limit)
        embedCalls := 1 }

/-- `VectorStore.search` including the lazy-initialization guard
(vector-store.ts lines 240-242): a store that is not initialized is
initialized first, and only an initialization failure aborts; the
method never checks for, or throws, `NotInitializedError`. -/
def searchOp (ienv : InitEnv) (env : SearchEnv) (st : VSState) (opts : SearchOptions) :
    SearchRun :=
  if st.ready then searchCore env st opts
  else
    match initStore ienv st with
    | .error e => { result := .error (.initFailed e), embedCalls := 0 }
    | .ok (st', _) => searchCore env st' opts

/-- `ImportOptions` (vector-store.ts lines 35-40).  All fields are
optional; `importFiles` itself only forwards the whole record to the
processor — it never reads any field. -/
structure ImportOptions where
  chunkSize : Option Nat := none
  overlapSize : Option Nat := none
  skipDuplicates : Option Bool := none
  forceUpdate : Option Bool := none
  deriving Repr

/-- One entry of `ImportStats.errors` (vector-store.ts lines 28-32). -/
structure ImportError where
  file : String
  error : String
  retryable : Bool
  deriving DecidableEq, Repr

/-- `ImportStats` (vector-store.ts lines 24-33). -/
structure ImportStats where
  success : Bool
  filesProcessed : Nat
  vectorCount : Nat
  errors : List ImportError
  deriving DecidableEq, Repr

/-- Per-chunk metadata produced by a document processor
(`result.metadata[i]`, consumed at vector-store.ts lines 166-173). -/
structure ChunkMeta where
  source : String
  type : String
  title : Option String
  category : Option String
  deriving DecidableEq, Repr

/-- `processor.processFile` output: parallel arrays of chunk texts and
chunk metadata (vector-store.ts line 154). -/
structure ProcessResult where
  contents : List String
  metadata : List ChunkMeta
  deriving Repr

/-- The row written by the `updateDocumentVectorStats` call at
vector-store.ts lines 205-212 (persisted by
statistics.service.ts lines 160-187; the DB-side timestamp is not
modelled). -/
structure DocVectorStats where
  documentId : Nat
  vectorCount : Nat
  averageVectorLength : Nat
  totalTokens : Nat
  chunksCount : Nat
  deriving DecidableEq, Repr

/-- Environment consumed by `importFiles`: the processor registry
(`getProcessor`, returning for a path the `processFile` behaviour on
that path, `.error` modelling a thrown processing failure), the
embedding model (`none` models `generateEmbedding` throwing for that
chunk), the content hash function (sha256 hex in the source), whether
the statistics writes and the final `writeIndex` succeed (these
methods rethrow DB/file errors), and the message carried by a thrown
batch-level error. -/
structure ImportEnv where
  getProcessor : String → Option (String → ImportOptions → Except String ProcessResult)
  embed : String → Option (List ℚ)
  hashFn : String → String
  docStatsOk : Bool
  dbStatsOk : Bool
  writeIndexOk : Bool
  tailErrMsg : String

/-- Everything one `importFiles` call produces: the returned
`ImportStats`, the final store state, the per-document and database
statistics writes that reached the store, whether the index file was
written, and how many embedding-model / processor invocations the call
made. -/
structure ImportRun where
  stats : ImportStats
  st : VSState
  docVecs : List (Nat × Nat)
  docStatsWritten : List DocVectorStats
  dbStatsUpdated : Bool
  indexWritten : Bool
  embedCalls : Nat
  processorCalls : Nat
  deriving Repr

/-- Mutable state threaded through the file/chunk loops of
`importFiles`. -/
structure ImportLoopState where
  st : VSState
  docVecs : List (Nat × Nat)
  filesProcessed : Nat
  vectorCount : Nat
  errors : List ImportError
  embedCalls : Nat
  processorCalls : Nat

/-- The `documentVectors.set(docId, (documentVectors.get(docId) || 0) + 1)`
update of vector-store.ts lines 179-182 (JS `Map` preserves insertion
order, as does this association list). -/
def bumpDocVec : List (Nat × Nat) → Nat → List (Nat × Nat)
  | [], docId => [(docId, 1)]
  | (d, n) :: rest, docId =>
    if d = docId then (d, n + 1) :: rest else (d, n) :: bumpDocVec rest docId

/-- Modelled from the spec: `db.addDocument` (DatabaseManager) is not
under src/ — only its call site at vector-store.ts lines 166-173 is.
Per spec §3, the Document `id` is "assigned by the metadata store on
insert"; the model appends the row and returns the next id. -/
def addDocument (st : VSState) (row : DocRow) : Nat × VSState :=
  (st.nextId,
    { st with docs := st.docs ++ [(st.nextId, row)], nextId := st.nextId + 1 })

/-- One iteration of the chunk loop (vector-store.ts lines 157-189).
The embedding is generated first (line 163); only then is the chunk's
metadata dereferenced while building the `addDocument` argument (lines
166-173), the point added to the index (line 176), the per-document
counter bumped and `vectorCount` incremented (lines 179-185).  Any
failure in this sequence is caught at lines 186-188 and merely logged:
nothing is recorded in `errors`. -/
def addChunk (env : ImportEnv) (ls : ImportLoopState) (chunk : String × Option ChunkMeta) :
    ImportLoopState :=
  let ls := { ls with embedCalls := ls.embedCalls + 1 }
  match env.embed chunk.1, chunk.2 with
  | some vec, some meta =>
    let row : DocRow :=
      { content := chunk.1
        source := meta.source
        type := meta.type
        title := meta.title
        category := meta.category
        contentHash := env.hashFn chunk.1 }
    let idSt := addDocument ls.st row
    let st := { idSt.2 with indexPoints := idSt.2.indexPoints ++ [(idSt.1, vec)] }
    { ls with
        st := st
        docVecs := bumpDocVec ls.docVecs idSt.1
        vectorCount := ls.vectorCount + 1 }
  | _, _ => ls

/-- The chunk pairs iterated by `for (let i = 0; i < result.contents.length; i++)`
(vector-store.ts line 157): the i-th content with the metadata at the
same index, which may be absent when the arrays are not aligned. -/
def zipChunks : List String → List ChunkMeta → List (String × Option ChunkMeta)
  | [], _ => []
  | c :: cs, [] => (c, none) :: zipChunks cs []
  | c :: cs, m :: ms => (c, some m) :: zipChunks cs ms

/-- The chunk iteration space of one processed file. -/
def chunkPairs (res : ProcessResult) : List (String × Option ChunkMeta) :=
  zipChunks res.contents res.metadata

/-- One iteration of the file loop (vector-store.ts lines 140-199):
no registered processor records a non-retryable error and continues
(lines 144-151); a throwing `processFile` records a retryable error
(lines 192-198); otherwise all chunks are processed and
`filesProcessed` is incremented (line 191). -/
def importFile (env : ImportEnv) (opts : ImportOptions) (ls : ImportLoopState)
    (filePath : String) : ImportLoopState :=
  match env.getProcessor filePath with
  | none =>
    { ls with errors := ls.errors ++
        [{ file := filePath, error := "No processor found for file type", retryable := false }] }
  | some proc =>
    let ls := { ls with processorCalls := ls.processorCalls + 1 }
    match proc filePath opts with
    | .error msg =>
      { ls with errors := ls.errors ++
          [{ file := filePath, error := msg, retryable := true }] }
    | .ok res =>
      let ls' := (chunkPairs res).foldl (addChunk env) ls
      { ls' with filesProcessed := ls'.filesProcessed + 1 }

/-- `VectorStore.importFiles` on an already-initialized store
(vector-store.ts lines 130-236).  After the file loop, statistics are
written only when `stats.success && stats.vectorCount > 0` (line 202;
`stats.success` is still `true` there, since nothing inside the loop
clears it); each `updateDocumentVectorStats` row is synthesized from
the per-document vector count and the fixed dimension 384 (lines
205-212), then `updateDatabaseStats` runs (line 216), then the index is
written (lines 220-221).  A throw anywhere in that tail reaches the
catch at lines 224-236, which discards the accumulated `errors` and
returns `success := false` with the single `"batch"` entry. -/
def importFilesCore (env : ImportEnv) (st : VSState) (filePaths : List String)
    (opts : ImportOptions) : ImportRun :=
  let ls0 : ImportLoopState :=
    { st := st, docVecs := [], filesProcessed := 0, vectorCount := 0
      errors := [], embedCalls := 0, processorCalls := 0 }
  let ls := filePaths.foldl (importFile env opts) ls0
  let wantStats := decide (0 < ls.vectorCount)
  let docStatsWritten :=
    if wantStats && env.docStatsOk then
      ls.docVecs.map fun dn =>
        ({ documentId := dn.1, vectorCount := dn.2, averageVectorLength := 384
           totalTokens := dn.2 * 384, chunksCount := dn.2 } : DocVectorStats)
    else []
  let dbStatsUpdated := wantStats && env.docStatsOk && env.dbStatsOk
  let tailOk := (!wantStats || (env.docStatsOk && env.dbStatsOk))
  let indexWritten := tailOk && env.writeIndexOk
  let stats : ImportStats :=
    if tailOk && env.writeIndexOk then
      { success := true, filesProcessed := ls.filesProcessed
        vectorCount := ls.vectorCount, errors := ls.errors }
    else
      { success := false, filesProcessed := ls.filesProcessed
        vectorCount := ls.vectorCount
        errors := [{ file := "batch", error := env.tailErrMsg, retryable := true }] }
  { stats := stats, st := ls.st, docVecs := ls.docVecs
    docStatsWritten := docStatsWritten
    dbStatsUpdated := dbStatsUpdated, indexWritten := indexWritten
    embedCalls := ls.embedCalls, processorCalls := ls.processorCalls }

/-- `VectorStore.importFiles` including the lazy-initialization guard
(vector-store.ts lines 126-128), which sits outside the batch
`try`/`catch`: an initialization failure propagates to the caller. -/
def importFilesOp (ienv : InitEnv) (env : ImportEnv) (st : VSState)
    (filePaths : List String) (opts : ImportOptions) : Except InitErr ImportRun :=
  if st.ready then .ok (importFilesCore env st filePaths opts)
  else
    match initStore ienv st with
    | .error e => .error e
    | .ok (st', _) => .ok (importFilesCore env st' filePaths opts)

/-- Result of `VectorStore.close` (vector-store.ts lines 293-308): the
final state plus whether the index file was persisted and whether the
metadata-store connection was closed. -/
structure CloseRun where
  st : VSState
  indexSaved : Bool
  dbClosed : Bool
  deriving DecidableEq, Repr

/-- `VectorStore.close` (vector-store.ts lines 293-308).  On an
initialized store: the index is written only when it holds at least
one point (line 297); a failing `writeIndex` (`saveOk = false`) throws
into the catch at lines 302-303, skipping `db.close()`; the `finally`
at lines 304-306 always clears the initialized flag.  On a
non-initialized store the whole body is skipped.  `db.close()` itself
is modelled as non-throwing (a throw there would likewise be caught at
lines 302-303 and change nothing that the properties below state). -/
def closeOp (st : VSState) (saveOk : Bool) : CloseRun :=
  if st.ready then
    if 0 < st.indexPoints.length then
      if saveOk then
        { st := { st with ready := false }, indexSaved := true, dbClosed := true }
      else
        { st := { st with ready := false }, indexSaved := false, dbClosed := false }
    else
      { st := { st with ready := false }, indexSaved := false, dbClosed := true }
  else
    { st := st, indexSaved := false, dbClosed := false }


/-- Specification helper: whether `importFiles` reaches the
`stats.filesProcessed++` at vector-store.ts line 191 for a path, i.e. a
processor exists and `processFile` does not throw. -/
def fileProcessedOk (env : ImportEnv) (opts : ImportOptions) (p : String) : Bool :=
  match env.getProcessor p with
  | none => false
  | some proc =>
    match proc p opts with
    | .error _ => false
    | .ok _ => true

/-- Concrete processor used to evaluate claim C1: two chunks per file. -/
def c1Proc : String → ImportOptions → Except String ProcessResult :=
  fun _ _ => .ok
    { contents := ["alpha", "beta"]
      metadata := [{ source := "a.clw", type := "clw", title := none, category := none },
                   { source := "a.clw", type := "clw", title := none, category := none }] }

/-- Concrete import environment used to evaluate claim C1. -/
def c1Env : ImportEnv :=
  { getProcessor := fun p => if p = "a.clw" then some c1Proc else none
    embed := fun _ => some []
    hashFn := fun s => s
    docStatsOk := true, dbStatsOk := true, writeIndexOk := true
    tailErrMsg := "batch" }

/-- Fresh initialized store used to evaluate claim C1. -/
def c1St : VSState := { ready := true, indexPoints := [], docs := [], nextId := 1 }

/-- Options with `skipDuplicates = true`, as in claim C1. -/
def c1Opts : ImportOptions := { skipDuplicates := some true }

/-- First import of `a.clw` (claim C1). -/
def c1Run1 : ImportRun := importFilesCore c1Env c1St ["a.clw"] c1Opts

/-- Second import of the same file on the resulting state (claim C1). -/
def c1Run2 : ImportRun := importFilesCore c1Env c1Run1.st ["a.clw"] c1Opts

/-- Concrete import environment used to evaluate claim C4: the processor
yields one chunk and embedding that chunk throws. -/
def c4Env : ImportEnv :=
  { getProcessor := fun _ => some (fun _ _ => .ok
      { contents := ["c1"]
        metadata := [{ source := "a.clw", type := "clw", title := none, category := none }] })
    embed := fun _ => none
    hashFn := fun s => s
    docStatsOk := true, dbStatsOk := true, writeIndexOk := true
    tailErrMsg := "batch" }

/-- Import of one file whose only chunk fails to embed (claim C4). -/
def c4Run : ImportRun :=
  importFilesCore c4Env { ready := true, indexPoints := [], docs := [], nextId := 1 } ["a.clw"] {}

/-- Concrete processor whose `processFile` throws (claim C4 witness). -/
def c4bProc : String → ImportOptions → Except String ProcessResult :=
  fun _ _ => .error "IO error"

/-- Concrete import environment with a throwing processor (claim C4). -/
def c4bEnv : ImportEnv :=
  { getProcessor := fun _ => some c4bProc
    embed := fun _ => none
    hashFn := fun s => s
    docStatsOk := true, dbStatsOk := true, writeIndexOk := true
    tailErrMsg := "batch" }

/-- Fresh initialized store used by the claim C4 witness. -/
def c4bSt : VSState := { ready := true, indexPoints := [], docs := [], nextId := 1 }

/-- Concrete import environment with no registered processors (claim C5). -/
def c5Env : ImportEnv :=
  { getProcessor := fun _ => none
    embed := fun _ => none
    hashFn := fun s => s
    docStatsOk := true, dbStatsOk := true, writeIndexOk := true
    tailErrMsg := "batch" }

/-- Fresh initialized store used by the claim C5 witness. -/
def c5St : VSState := { ready := true, indexPoints := [], docs := [], nextId := 1 }

/-- Concrete import environment used to evaluate claim C8. -/
def c8Env : ImportEnv :=
  { getProcessor := fun p => if p = "a.clw" then some (fun _ _ => .ok
      { contents := ["c1"]
        metadata := [{ source := "a.clw", type := "clw", title := none, category := none }] })
      else none
    embed := fun _ => some []
    hashFn := fun s => s
    docStatsOk := true, dbStatsOk := true, writeIndexOk := true
    tailErrMsg := "batch" }

/-- Fresh initialized store used to evaluate claim C8. -/
def c8St : VSState := { ready := true, indexPoints := [], docs := [], nextId := 1 }

/-- Invalid import options (`overlapSize >= chunkSize`) for claim C8. -/
def c8Opts : ImportOptions := { chunkSize := some 100, overlapSize := some 200 }

/-- Import run under invalid options (claim C8). -/
def c8Run : ImportRun := importFilesCore c8Env c8St ["a.clw"] c8Opts

/-- Concrete import environment used by the claim C10 witness. -/
def c10Env : ImportEnv :=
  { getProcessor := fun _ => none
    embed := fun _ => none
    hashFn := fun s => s
    docStatsOk := true, dbStatsOk := true, writeIndexOk := true
    tailErrMsg := "batch" }

/-- Fresh initialized store used by the claim C10 witness. -/
def c10St : VSState := { ready := true, indexPoints := [], docs := [], nextId := 1 }


theorem collectResults_minScore (getDoc : Nat → Option DocRow) (minScore : ℚ) :
    ∀ (ns : List (Nat × ℚ)) (limit : Nat) (r : SearchResult),
      r ∈ collectResults getDoc minScore ns limit → minScore ≤ r.confidence := by
  intro ns
  induction ns with
  | nil => intro limit r h; simp [collectResults] at h
  | cons hd rest ih =>
    intro limit r h
    obtain ⟨docId, dist⟩ := hd
    simp only [collectResults] at h
    by_cases hs : 1 - dist < minScore
    · rw [if_pos hs] at h; exact ih limit r h
    · rw [if_neg hs] at h
      cases hdoc : getDoc docId with
      | none => rw [hdoc] at h; exact ih limit r h
      | some doc =>
        rw [hdoc] at h
        simp only at h
        by_cases hl : limit ≤ 1
        · rw [if_pos hl] at h
          rcases List.mem_singleton.mp h with h1
          subst h1
          exact le_of_not_lt hs
        · rw [if_neg hl] at h
          rcases List.mem_cons.mp h with h1 | h2
          · subst h1; exact le_of_not_lt hs
          · exact ih (limit - 1) r h2

theorem collectResults_conf_mem (getDoc : Nat → Option DocRow) (minScore : ℚ) :
    ∀ (ns : List (Nat × ℚ)) (limit : Nat) (r : SearchResult),
      r ∈ collectResults getDoc minScore ns limit → ∃ p ∈ ns, r.confidence = 1 - p.2 := by
  intro ns
  induction ns with
  | nil => intro limit r h; simp [collectResults] at h
  | cons hd rest ih =>
    intro limit r h
    obtain ⟨docId, dist⟩ := hd
    simp only [collectResults] at h
    by_cases hs : 1 - dist < minScore
    · rw [if_pos hs] at h
      obtain ⟨p, hp, he⟩ := ih limit r h
      exact ⟨p, List.mem_cons_of_mem _ hp, he⟩
    · rw [if_neg hs] at h
      cases hdoc : getDoc docId with
      | none =>
        rw [hdoc] at h
        obtain ⟨p, hp, he⟩ := ih limit r h
        exact ⟨p, List.mem_cons_of_mem _ hp, he⟩
      | some doc =>
        rw [hdoc] at h
        simp only at h
        by_cases hl : limit ≤ 1
        · rw [if_pos hl] at h
          rcases List.mem_singleton.mp h with h1
          subst h1
          exact ⟨(docId, dist), List.mem_cons_self _ _, rfl⟩
        · rw [if_neg hl] at h
          rcases List.mem_cons.mp h with h1 | h2
          · subst h1; exact ⟨(docId, dist), List.mem_cons_self _ _, rfl⟩
          · obtain ⟨p, hp, he⟩ := ih (limit - 1) r h2
            exact ⟨p, List.mem_cons_of_mem _ hp, he⟩

theorem collectResults_sorted (getDoc : Nat → Option DocRow) (minScore : ℚ) :
    ∀ (ns : List (Nat × ℚ)) (limit : Nat),
      ns.Pairwise (fun a b => a.2 ≤ b.2) →
      (collectResults getDoc minScore ns limit).Pairwise
        (fun a b => b.confidence ≤ a.confidence) := by
  intro ns
  induction ns with
  | nil => intro limit _; simp [collectResults]
  | cons hd rest ih =>
    intro limit hp
    obtain ⟨docId, dist⟩ := hd
    have htail := List.Pairwise.of_cons hp
    have hhead : ∀ b ∈ rest, dist ≤ b.2 := by
      intro b hb
      exact (List.pairwise_cons.mp hp).1 b hb
    simp only [collectResults]
    by_cases hs : 1 - dist < minScore
    · rw [if_pos hs]; exact ih limit htail
    · rw [if_neg hs]
      cases hdoc : getDoc docId with
      | none => exact ih limit htail
      | some doc =>
        simp only
        by_cases hl : limit ≤ 1
        · rw [if_pos hl]; simp
        · rw [if_neg hl]
          refine List.pairwise_cons.mpr ⟨?_, ih (limit - 1) htail⟩
          intro r' hr'
          obtain ⟨p, hp2, he⟩ := collectResults_conf_mem getDoc minScore rest (limit - 1) r' hr'
          rw [he]
          have := hhead p hp2
          simpa using sub_le_sub_left this 1


theorem searchCore_ok_minScore (env : SearchEnv) (st : VSState) (opts : SearchOptions)
    (res : List SearchResult) (r : SearchResult)
    (hok : (searchCore env st opts).result = .ok res) (hr : r ∈ res) :
    opts.minScore.getD (2 / 5 : ℚ) ≤ r.confidence := by
  unfold searchCore at hok
  cases henv : env.embedQuery with
  | none => rw [henv] at hok; simp at hok
  | some qv =>
    rw [henv] at hok
    simp only at hok
    split at hok
    · simp only [Except.ok.injEq] at hok
      subst hok
      simp at hr
    · simp only [Except.ok.injEq] at hok
      subst hok
      exact collectResults_minScore env.getDoc _ _ _ r hr

theorem searchCore_ok_of_state (ienv : InitEnv) (env : SearchEnv) (st : VSState)
    (opts : SearchOptions) (res : List SearchResult)
    (hok : (searchOp ienv env st opts).result = .ok res) :
    ∃ st0, (searchCore env st0 opts).result = .ok res := by
  unfold searchOp at hok
  split at hok
  · exact ⟨st, hok⟩
  · cases hinit : initStore ienv st with
    | error e => rw [hinit] at hok; simp at hok
    | ok p => rw [hinit] at hok; exact ⟨p.1, hok⟩

/-- C2: for every call to search and every result in the returned list, the
result confidence (score `1 - distance`) is at least `options.minScore`
(default 0.4 = 2/5); no result below the threshold is ever included,
regardless of the `limit` option. -/
theorem c2_thm (ienv : InitEnv) (env : SearchEnv) (st : VSState) (opts : SearchOptions)
    (res : List SearchResult) (r : SearchResult)
    (hok : (searchOp ienv env st opts).result = .ok res) (hr : r ∈ res) :
    opts.minScore.getD (2 / 5 : ℚ) ≤ r.confidence := by
  obtain ⟨st0, h0⟩ := searchCore_ok_of_state ienv env st opts res hok
  exact searchCore_ok_minScore env st0 opts res r h0 hr

/-- C3: in a single search response, whenever result A precedes result B,
`A.confidence >= B.confidence`, assuming the underlying index returns
neighbours in ascending-distance order; ties keep index order (the loop
imposes no secondary tie-break). -/
theorem c3_thm (ienv : InitEnv) (env : SearchEnv) (st : VSState) (opts : SearchOptions)
    (res : List SearchResult)
    (hsort : ∀ k, (env.knn k).Pairwise (fun a b => a.2 ≤ b.2))
    (hok : (searchOp ienv env st opts).result = .ok res) :
    res.Pairwise (fun a b => b.confidence ≤ a.confidence) := by
  obtain ⟨st0, h0⟩ := searchCore_ok_of_state ienv env st opts res hok
  unfold searchCore at h0
  cases henv : env.embedQuery with
  | none => rw [henv] at h0; simp at h0
  | some qv =>
    rw [henv] at h0
    simp only at h0
    split at h0
    · simp only [Except.ok.injEq] at h0; subst h0; simp
    · simp only [Except.ok.injEq] at h0
      subst h0
      exact collectResults_sorted env.getDoc _ _ _ (hsort _)

/-- C2 witness: the theorem applied to a concrete two-neighbour search whose
default threshold 2/5 bounds the first result score 9/10. -/
theorem c2_witness :
    ({ limit := none, minScore := none, includeVectors := none } : SearchOptions).minScore.getD (2 / 5 : ℚ) ≤
      ({ content := "c", confidence := 9 / 10, fileType := "t", location := "s",
         context := "ti" } : SearchResult).confidence :=
  c2_thm ⟨true, true, false, false, []⟩
    ⟨some [], fun _ => [(0, 1 / 10), (1, 3 / 10)], fun _ => some ⟨"c", "s", "t", some "ti", none, "h"⟩⟩
    ⟨true, [(0, []), (1, [])], [], 3⟩ {}
    [⟨"c", 9 / 10, "t", "s", "ti"⟩, ⟨"c", 7 / 10, "t", "s", "ti"⟩]
    ⟨"c", 9 / 10, "t", "s", "ti"⟩
    (by with_unfolding_all rfl) (by simp)

/-- C3 witness: the theorem applied to a concrete search returning scores
9/10 then 7/10. -/
theorem c3_witness :
    ([⟨"c", 9 / 10, "t", "s", "ti"⟩, ⟨"c", 7 / 10, "t", "s", "ti"⟩] : List SearchResult).Pairwise
      (fun a b => b.confidence ≤ a.confidence) :=
  c3_thm ⟨true, true, false, false, []⟩
    ⟨some [], fun _ => [(0, 1 / 10), (1, 3 / 10)], fun _ => some ⟨"c", "s", "t", some "ti", none, "h"⟩⟩
    ⟨true, [(0, []), (1, [])], [], 3⟩ {}
    [⟨"c", 9 / 10, "t", "s", "ti"⟩, ⟨"c", 7 / 10, "t", "s", "ti"⟩]
    (by intro k; simp; norm_num)
    (by with_unfolding_all rfl)

/-- C6 counterexample: against an index with `count() == 0` and a query whose
embedding fails, `search` does not return `[]` — it invokes the embedding
model first (embedCalls = 1) and propagates the embedding error, refuting
the claim that the empty result is produced without invoking the model. -/
theorem c6_counterexample :
    (searchCore ⟨none, fun _ => [], fun _ => none⟩ ⟨true, [], [], 0⟩ {}).result =
        .error .embedFailed ∧
      (searchCore ⟨none, fun _ => [], fun _ => none⟩ ⟨true, [], [], 0⟩ {}).embedCalls = 1 :=
  ⟨by with_unfolding_all rfl, by with_unfolding_all rfl⟩

/-- C6 amended: search against an index with `count() == 0` returns `[]`
without throwing provided the query embedding succeeds; the embedding
model is invoked (once) before the empty-index check, so an embedding
failure propagates even on an empty index. -/
theorem c6_amended (env : SearchEnv) (st : VSState) (opts : SearchOptions)
    (hempty : st.indexPoints = []) (hq : env.embedQuery.isSome) :
    (searchCore env st opts).result = .ok [] ∧ (searchCore env st opts).embedCalls = 1 := by
  unfold searchCore
  cases henv : env.embedQuery with
  | none => rw [henv] at hq; simp at hq
  | some qv =>
    simp [hempty, Nat.min_zero]

/-- C6 witness: the amended theorem applied to a concrete empty-index search. -/
theorem c6_amended_witness :
    (searchCore ⟨some [], fun _ => [], fun _ => none⟩ ⟨true, [], [], 0⟩ {}).result = .ok [] ∧
      (searchCore ⟨some [], fun _ => [], fun _ => none⟩ ⟨true, [], [], 0⟩ {}).embedCalls = 1 :=
  c6_amended ⟨some [], fun _ => [], fun _ => none⟩ ⟨true, [], [], 0⟩ {} rfl rfl


theorem addChunk_cases (env : ImportEnv) (ls : ImportLoopState) (c : String × Option ChunkMeta) :
    (addChunk env ls c).errors = ls.errors ∧
    (addChunk env ls c).filesProcessed = ls.filesProcessed ∧
    (addChunk env ls c).processorCalls = ls.processorCalls ∧
    (addChunk env ls c).embedCalls = ls.embedCalls + 1 := by
  unfold addChunk
  cases henv : env.embed c.1 <;> cases hm : c.2 <;> simp [henv, hm]

theorem addChunk_ok (env : ImportEnv) (ls : ImportLoopState) (c : String × Option ChunkMeta)
    (h1 : (env.embed c.1).isSome) (h2 : c.2.isSome) :
    (addChunk env ls c).vectorCount = ls.vectorCount + 1 ∧
    (addChunk env ls c).st.indexPoints.length = ls.st.indexPoints.length + 1 := by
  unfold addChunk
  cases henv : env.embed c.1 with
  | none => rw [henv] at h1; simp at h1
  | some v =>
    cases hm : c.2 with
    | none => rw [hm] at h2; simp at h2
    | some m => simp [henv, hm, addDocument]

theorem chunkFold_inv (env : ImportEnv) :
    ∀ (ps : List (String × Option ChunkMeta)) (ls : ImportLoopState),
      ((ps.foldl (addChunk env) ls).errors = ls.errors ∧
       (ps.foldl (addChunk env) ls).filesProcessed = ls.filesProcessed ∧
       (ps.foldl (addChunk env) ls).processorCalls = ls.processorCalls ∧
       (ps.foldl (addChunk env) ls).embedCalls = ls.embedCalls + ps.length) := by
  intro ps
  induction ps with
  | nil => intro ls; simp
  | cons hd tl ih =>
    intro ls
    rw [List.foldl_cons]
    obtain ⟨e1, f1, p1, c1⟩ := ih (addChunk env ls hd)
    obtain ⟨e0, f0, p0, c0⟩ := addChunk_cases env ls hd
    refine ⟨by rw [e1, e0], by rw [f1, f0], by rw [p1, p0], ?_⟩
    rw [c1, c0]
    simp
    omega

theorem chunkFold_ok (env : ImportEnv) :
    ∀ (ps : List (String × Option ChunkMeta)) (ls : ImportLoopState),
      (∀ p ∈ ps, (env.embed p.1).isSome ∧ p.2.isSome) →
      (ps.foldl (addChunk env) ls).vectorCount = ls.vectorCount + ps.length ∧
      (ps.foldl (addChunk env) ls).st.indexPoints.length =
        ls.st.indexPoints.length + ps.length := by
  intro ps
  induction ps with
  | nil => intro ls _; simp
  | cons hd tl ih =>
    intro ls hall
    rw [List.foldl_cons]
    obtain ⟨h1, h2⟩ := hall hd (List.mem_cons_self _ _)
    obtain ⟨v0, i0⟩ := addChunk_ok env ls hd h1 h2
    obtain ⟨v1, i1⟩ := ih (addChunk env ls hd) (fun p hp => hall p (List.mem_cons_of_mem _ hp))
    constructor
    · rw [v1, v0, List.length_cons]; omega
    · rw [i1, i0, List.length_cons]; omega

theorem zipChunks_length :
    ∀ (cs : List String) (ms : List ChunkMeta), (zipChunks cs ms).length = cs.length := by
  intro cs
  induction cs with
  | nil => intro ms; cases ms <;> rfl
  | cons c cs ih =>
    intro ms
    cases ms with
    | nil => simp [zipChunks, ih]
    | cons m ms => simp [zipChunks, ih]

theorem zipChunks_ok :
    ∀ (cs : List String) (ms : List ChunkMeta), ms.length = cs.length →
      ∀ p ∈ zipChunks cs ms, p.1 ∈ cs ∧ p.2.isSome := by
  intro cs
  induction cs with
  | nil => intro ms _ p hp; cases ms <;> simp [zipChunks] at hp
  | cons c cs ih =>
    intro ms hlen p hp
    cases ms with
    | nil => simp at hlen
    | cons m ms =>
      simp only [zipChunks, List.mem_cons] at hp
      rcases hp with h | h
      · subst h; simp
      · obtain ⟨h1, h2⟩ := ih ms (by simpa using hlen) p h
        exact ⟨List.mem_cons_of_mem _ h1, h2⟩


theorem importFile_none (env : ImportEnv) (opts : ImportOptions) (ls : ImportLoopState)
    (p : String) (h : env.getProcessor p = none) :
    importFile env opts ls p =
      { ls with errors := ls.errors ++
          [{ file := p, error := "No processor found for file type", retryable := false }] } := by
  unfold importFile
  rw [h]

theorem importFile_procErr (env : ImportEnv) (opts : ImportOptions) (ls : ImportLoopState)
    (p : String) (proc : String → ImportOptions → Except String ProcessResult) (msg : String)
    (h : env.getProcessor p = some proc) (he : proc p opts = .error msg) :
    importFile env opts ls p =
      { ls with processorCalls := ls.processorCalls + 1
                errors := ls.errors ++ [{ file := p, error := msg, retryable := true }] } := by
  unfold importFile
  rw [h]
  simp only [he]

theorem importFile_procOk (env : ImportEnv) (opts : ImportOptions) (ls : ImportLoopState)
    (p : String) (proc : String → ImportOptions → Except String ProcessResult)
    (res : ProcessResult)
    (h : env.getProcessor p = some proc) (ho : proc p opts = .ok res) :
    importFile env opts ls p =
      (let ls2 := (chunkPairs res).foldl (addChunk env)
        { ls with processorCalls := ls.processorCalls + 1 }
       { ls2 with filesProcessed := ls2.filesProcessed + 1 }) := by
  unfold importFile
  rw [h]
  simp only [ho]

theorem importFile_inv (env : ImportEnv) (opts : ImportOptions) (ls : ImportLoopState)
    (p : String) :
    (importFile env opts ls p).filesProcessed =
      ls.filesProcessed + (if fileProcessedOk env opts p then 1 else 0) ∧
    (importFile env opts ls p).processorCalls =
      ls.processorCalls + (if (env.getProcessor p).isSome then 1 else 0) := by
  cases h : env.getProcessor p with
  | none =>
    rw [importFile_none env opts ls p h]
    simp [fileProcessedOk, h]
  | some proc =>
    cases he : proc p opts with
    | error msg =>
      rw [importFile_procErr env opts ls p proc msg h he]
      simp [fileProcessedOk, h, he]
    | ok res =>
      rw [importFile_procOk env opts ls p proc res h he]
      simp only
      obtain ⟨e1, f1, p1, c1⟩ := chunkFold_inv env (chunkPairs res)
        { ls with processorCalls := ls.processorCalls + 1 }
      constructor
      · rw [f1]; simp [fileProcessedOk, h, he]
      · rw [p1]; simp [h]

theorem importFile_errors_mono (env : ImportEnv) (opts : ImportOptions) (ls : ImportLoopState)
    (p : String) (e : ImportError) (he : e ∈ ls.errors) :
    e ∈ (importFile env opts ls p).errors := by
  cases h : env.getProcessor p with
  | none =>
    rw [importFile_none env opts ls p h]
    exact List.mem_append_left _ he
  | some proc =>
    cases hr : proc p opts with
    | error msg =>
      rw [importFile_procErr env opts ls p proc msg h hr]
      exact List.mem_append_left _ he
    | ok res =>
      rw [importFile_procOk env opts ls p proc res h hr]
      simp only
      obtain ⟨e1, _, _, _⟩ := chunkFold_inv env (chunkPairs res)
        { ls with processorCalls := ls.processorCalls + 1 }
      rw [e1]
      exact he

theorem fileFold_counts (env : ImportEnv) (opts : ImportOptions) :
    ∀ (paths : List String) (ls : ImportLoopState),
      ((paths.foldl (importFile env opts) ls).filesProcessed =
        ls.filesProcessed + paths.countP (fun q => fileProcessedOk env opts q) ∧
       (paths.foldl (importFile env opts) ls).processorCalls =
        ls.processorCalls + paths.countP (fun q => (env.getProcessor q).isSome)) := by
  intro paths
  induction paths with
  | nil => intro ls; simp
  | cons hd tl ih =>
    intro ls
    rw [List.foldl_cons]
    obtain ⟨f1, p1⟩ := ih (importFile env opts ls hd)
    obtain ⟨f0, p0⟩ := importFile_inv env opts ls hd
    constructor
    · rw [f1, f0, List.countP_cons]
      by_cases hok : fileProcessedOk env opts hd <;> simp [hok] <;> omega
    · rw [p1, p0, List.countP_cons]
      by_cases hok : (env.getProcessor hd).isSome <;> simp [hok] <;> omega

theorem fileFold_errors_mono (env : ImportEnv) (opts : ImportOptions) :
    ∀ (paths : List String) (ls : ImportLoopState) (e : ImportError),
      e ∈ ls.errors → e ∈ (paths.foldl (importFile env opts) ls).errors := by
  intro paths
  induction paths with
  | nil => intro ls e he; exact he
  | cons hd tl ih =>
    intro ls e he
    rw [List.foldl_cons]
    exact ih _ e (importFile_errors_mono env opts ls hd e he)

theorem fileFold_missing_mem (env : ImportEnv) (opts : ImportOptions) :
    ∀ (paths : List String) (ls : ImportLoopState) (p : String),
      p ∈ paths → env.getProcessor p = none →
      ({ file := p, error := "No processor found for file type", retryable := false } : ImportError) ∈
        (paths.foldl (importFile env opts) ls).errors := by
  intro paths
  induction paths with
  | nil => intro ls p hp; simp at hp
  | cons hd tl ih =>
    intro ls p hp hmiss
    rw [List.foldl_cons]
    rcases List.mem_cons.mp hp with h | h
    · subst h
      refine fileFold_errors_mono env opts tl _ _ ?_
      rw [importFile_none env opts ls p hmiss]
      exact List.mem_append_right _ (List.mem_singleton.mpr rfl)
    · exact ih _ p h hmiss

theorem fileFold_procErr_mem (env : ImportEnv) (opts : ImportOptions) :
    ∀ (paths : List String) (ls : ImportLoopState) (p : String)
      (proc : String → ImportOptions → Except String ProcessResult) (msg : String),
      p ∈ paths → env.getProcessor p = some proc → proc p opts = .error msg →
      ({ file := p, error := msg, retryable := true } : ImportError) ∈
        (paths.foldl (importFile env opts) ls).errors := by
  intro paths
  induction paths with
  | nil => intro ls p proc msg hp; simp at hp
  | cons hd tl ih =>
    intro ls p proc msg hp hproc herr
    rw [List.foldl_cons]
    rcases List.mem_cons.mp hp with h | h
    · subst h
      refine fileFold_errors_mono env opts tl _ _ ?_
      rw [importFile_procErr env opts ls p proc msg hproc herr]
      exact List.mem_append_right _ (List.mem_singleton.mpr rfl)
    · exact ih _ p proc msg h hproc herr


theorem importFilesCore_proj (env : ImportEnv) (st : VSState) (paths : List String)
    (opts : ImportOptions) :
    (importFilesCore env st paths opts).stats.filesProcessed =
      (paths.foldl (importFile env opts)
        { st := st, docVecs := [], filesProcessed := 0, vectorCount := 0
          errors := [], embedCalls := 0, processorCalls := 0 }).filesProcessed ∧
    (importFilesCore env st paths opts).stats.vectorCount =
      (paths.foldl (importFile env opts)
        { st := st, docVecs := [], filesProcessed := 0, vectorCount := 0
          errors := [], embedCalls := 0, processorCalls := 0 }).vectorCount ∧
    (importFilesCore env st paths opts).embedCalls =
      (paths.foldl (importFile env opts)
        { st := st, docVecs := [], filesProcessed := 0, vectorCount := 0
          errors := [], embedCalls := 0, processorCalls := 0 }).embedCalls ∧
    (importFilesCore env st paths opts).processorCalls =
      (paths.foldl (importFile env opts)
        { st := st, docVecs := [], filesProcessed := 0, vectorCount := 0
          errors := [], embedCalls := 0, processorCalls := 0 }).processorCalls ∧
    (importFilesCore env st paths opts).st =
      (paths.foldl (importFile env opts)
        { st := st, docVecs := [], filesProcessed := 0, vectorCount := 0
          errors := [], embedCalls := 0, processorCalls := 0 }).st ∧
    (importFilesCore env st paths opts).docVecs =
      (paths.foldl (importFile env opts)
        { st := st, docVecs := [], filesProcessed := 0, vectorCount := 0
          errors := [], embedCalls := 0, processorCalls := 0 }).docVecs := by
  refine ⟨?_, ?_, ?_, ?_, ?_, ?_⟩ <;>
      (unfold importFilesCore; simp only []) <;>
    (split <;> rfl)

theorem importFilesCore_success (env : ImportEnv) (st : VSState) (paths : List String)
    (opts : ImportOptions) (hds : env.docStatsOk = true) (hbs : env.dbStatsOk = true)
    (hwi : env.writeIndexOk = true) :
    (importFilesCore env st paths opts).stats.success = true ∧
    (importFilesCore env st paths opts).stats.errors =
      (paths.foldl (importFile env opts)
        { st := st, docVecs := [], filesProcessed := 0, vectorCount := 0
          errors := [], embedCalls := 0, processorCalls := 0 }).errors := by
  unfold importFilesCore
  simp [hds, hbs, hwi]

/-- C5: for every file path in an importFiles batch with no registered
processor, errors[] records an entry with message "No processor found for
file type" and retryable = false, the file contributes nothing to
filesProcessed (which counts exactly the successfully processed paths),
processing continues, and the batch result still has success = true when
nothing else throws. -/
theorem c5_thm (env : ImportEnv) (st : VSState) (paths : List String) (opts : ImportOptions)
    (p : String) (hp : p ∈ paths) (hmiss : env.getProcessor p = none)
    (hds : env.docStatsOk = true) (hbs : env.dbStatsOk = true) (hwi : env.writeIndexOk = true) :
    ({ file := p, error := "No processor found for file type", retryable := false } : ImportError) ∈
      (importFilesCore env st paths opts).stats.errors ∧
    (importFilesCore env st paths opts).stats.success = true ∧
    (importFilesCore env st paths opts).stats.filesProcessed =
      paths.countP (fun q => fileProcessedOk env opts q) ∧
    fileProcessedOk env opts p = false := by
  obtain ⟨hsucc, herr⟩ := importFilesCore_success env st paths opts hds hbs hwi
  obtain ⟨hf, _, _, _, _, _⟩ := importFilesCore_proj env st paths opts
  refine ⟨?_, hsucc, ?_, ?_⟩
  · rw [herr]
    exact fileFold_missing_mem env opts paths _ p hp hmiss
  · rw [hf]
    obtain ⟨hc, _⟩ := fileFold_counts env opts paths _
    rw [hc]
    simp
  · simp [fileProcessedOk, hmiss]

/-- C4 amended: per-FILE errors are accumulated into errors[] (retryable =
true) and never thrown, and success is false only when the batch tail
(statistics writes or index persistence) fails — per-CHUNK errors are
caught and logged but are not recorded in errors[]. -/
theorem c4_amended (env : ImportEnv) (st : VSState) (paths : List String) (opts : ImportOptions)
    (hds : env.docStatsOk = true) (hbs : env.dbStatsOk = true) (hwi : env.writeIndexOk = true) :
    (importFilesCore env st paths opts).stats.success = true ∧
    ∀ (p : String) (proc : String → ImportOptions → Except String ProcessResult) (msg : String),
      p ∈ paths → env.getProcessor p = some proc → proc p opts = .error msg →
      ({ file := p, error := msg, retryable := true } : ImportError) ∈
        (importFilesCore env st paths opts).stats.errors := by
  obtain ⟨hsucc, herr⟩ := importFilesCore_success env st paths opts hds hbs hwi
  refine ⟨hsucc, ?_⟩
  intro p proc msg hp hproc hmsg
  rw [herr]
  exact fileFold_procErr_mem env opts paths _ p proc msg hp hproc hmsg

/-- C8 amended: importFiles performs no validation of chunkSize or
overlapSize; even when overlapSize >= chunkSize the options are forwarded
unchanged and every file with a registered processor still has its
processor invoked. -/
theorem c8_amended (env : ImportEnv) (st : VSState) (paths : List String) (opts : ImportOptions)
    (c o : Nat) (hc : opts.chunkSize = some c) (ho : opts.overlapSize = some o) (hinv : c ≤ o) :
    (importFilesCore env st paths opts).processorCalls =
      paths.countP (fun q => (env.getProcessor q).isSome) := by
  obtain ⟨_, _, _, hpc, _, _⟩ := importFilesCore_proj env st paths opts
  rw [hpc]
  obtain ⟨_, hp⟩ := fileFold_counts env opts paths _
  rw [hp]
  simp

/-- C1 amended: importFiles never consults skipDuplicates or contentHash —
for any store state (in particular one already holding identical
content), importing a file re-embeds every chunk, increments vectorCount
by the chunk count, and appends that many new points to the index. -/
theorem c1_amended (env : ImportEnv) (st : VSState) (p : String)
    (proc : String → ImportOptions → Except String ProcessResult) (res : ProcessResult)
    (opts : ImportOptions)
    (hproc : env.getProcessor p = some proc) (hok : proc p opts = .ok res)
    (hlen : res.metadata.length = res.contents.length)
    (hemb : ∀ c ∈ res.contents, (env.embed c).isSome) :
    (importFilesCore env st [p] opts).stats.vectorCount = res.contents.length ∧
    (importFilesCore env st [p] opts).embedCalls = res.contents.length ∧
    (importFilesCore env st [p] opts).st.indexPoints.length =
      st.indexPoints.length + res.contents.length := by
  obtain ⟨_, hv, he, _, hst, _⟩ := importFilesCore_proj env st [p] opts
  have hfold : ([p].foldl (importFile env opts)
      { st := st, docVecs := [], filesProcessed := 0, vectorCount := 0
        errors := [], embedCalls := 0, processorCalls := 0 }) =
      importFile env opts
        { st := st, docVecs := [], filesProcessed := 0, vectorCount := 0
          errors := [], embedCalls := 0, processorCalls := 0 } p := by
    simp
  have hallok : ∀ q ∈ chunkPairs res, (env.embed q.1).isSome ∧ q.2.isSome := by
    intro q hq
    obtain ⟨h1, h2⟩ := zipChunks_ok res.contents res.metadata hlen q hq
    exact ⟨hemb q.1 h1, h2⟩
  have hplen : (chunkPairs res).length = res.contents.length :=
    zipChunks_length res.contents res.metadata
  rw [importFile_procOk env opts _ p proc res hproc hok] at hfold
  simp only at hfold
  obtain ⟨_, _, _, hec⟩ := chunkFold_inv env (chunkPairs res)
    { st := st, docVecs := [], filesProcessed := 0, vectorCount := 0
      errors := [], embedCalls := 0, processorCalls := 0 + 1 }
  obtain ⟨hvc, hil⟩ := chunkFold_ok env (chunkPairs res)
    { st := st, docVecs := [], filesProcessed := 0, vectorCount := 0
      errors := [], embedCalls := 0, processorCalls := 0 + 1 } hallok
  refine ⟨?_, ?_, ?_⟩
  · rw [hv, hfold]
    simp only
    rw [hvc, hplen]
    try simp
  · rw [he, hfold]
    simp only
    rw [hec, hplen]
    try simp
  · rw [hst, hfold]
    simp only
    rw [hil, hplen]
    try simp

theorem importFilesCore_statsWrites (env : ImportEnv) (st : VSState) (paths : List String)
    (opts : ImportOptions) :
    (importFilesCore env st paths opts).docStatsWritten =
      (if decide (0 < (paths.foldl (importFile env opts)
            { st := st, docVecs := [], filesProcessed := 0, vectorCount := 0
              errors := [], embedCalls := 0, processorCalls := 0 }).vectorCount) &&
          env.docStatsOk then
        (paths.foldl (importFile env opts)
            { st := st, docVecs := [], filesProcessed := 0, vectorCount := 0
              errors := [], embedCalls := 0, processorCalls := 0 }).docVecs.map fun dn =>
          ({ documentId := dn.1, vectorCount := dn.2, averageVectorLength := 384
             totalTokens := dn.2 * 384, chunksCount := dn.2 } : DocVectorStats)
      else []) ∧
    (importFilesCore env st paths opts).dbStatsUpdated =
      (decide (0 < (paths.foldl (importFile env opts)
            { st := st, docVecs := [], filesProcessed := 0, vectorCount := 0
              errors := [], embedCalls := 0, processorCalls := 0 }).vectorCount) &&
        env.docStatsOk && env.dbStatsOk) :=
  ⟨rfl, rfl⟩

/-- C10: when an import batch adds vectors, the per-document vector stats
rows are synthesized from the per-document vector count n alone —
vectorCount = n, averageVectorLength = 384 (the embedding dimension),
totalTokens = n * 384, chunksCount = n — and when the batch added zero
vectors no per-document or database stats are written at all. -/
theorem c10_thm (env : ImportEnv) (st : VSState) (paths : List String) (opts : ImportOptions) :
    ((importFilesCore env st paths opts).stats.vectorCount = 0 →
      (importFilesCore env st paths opts).docStatsWritten = [] ∧
      (importFilesCore env st paths opts).dbStatsUpdated = false) ∧
    (0 < (importFilesCore env st paths opts).stats.vectorCount → env.docStatsOk = true →
      (importFilesCore env st paths opts).docStatsWritten =
        (importFilesCore env st paths opts).docVecs.map fun dn =>
          { documentId := dn.1, vectorCount := dn.2, averageVectorLength := 384
            totalTokens := dn.2 * 384, chunksCount := dn.2 }) ∧
    (∀ s ∈ (importFilesCore env st paths opts).docStatsWritten,
      s.averageVectorLength = 384 ∧ s.totalTokens = s.vectorCount * 384 ∧
      s.chunksCount = s.vectorCount) := by
  obtain ⟨hw, hdb⟩ := importFilesCore_statsWrites env st paths opts
  obtain ⟨_, hv, _, _, _, hdv⟩ := importFilesCore_proj env st paths opts
  refine ⟨?_, ?_, ?_⟩
  · intro h
    rw [hv] at h
    rw [hw, hdb, h]
    simp
  · intro hpos hds
    rw [hv] at hpos
    rw [hw, hdv, hds]
    simp [hpos]
  · intro s hs
    rw [hw] at hs
    split at hs
    · obtain ⟨dn, _, hdn⟩ := List.mem_map.mp hs
      subst hdn
      simp
    · simp at hs


/-- C1 counterexample: importing the same two-chunk file twice with
skipDuplicates = true is NOT idempotent — the second run re-embeds both
chunks (embedCalls = 2) and reports vectorCount = 2, not 0, refuting the
claim that existing contentHashes are skipped without re-embedding. -/
theorem c1_counterexample :
    c1Run1.stats.vectorCount = 2 ∧ c1Run2.stats.vectorCount = 2 ∧ c1Run2.embedCalls = 2 := by
  refine ⟨?_, ?_, ?_⟩ <;> with_unfolding_all rfl

/-- C1 witness: the amended theorem applied to the second import of the same
file, on the state produced by the first import. -/
theorem c1_amended_witness :
    c1Run2.stats.vectorCount = 2 ∧ c1Run2.embedCalls = 2 ∧
      c1Run2.st.indexPoints.length = c1Run1.st.indexPoints.length + 2 := by
  have h := c1_amended c1Env c1Run1.st "a.clw" c1Proc
    { contents := ["alpha", "beta"]
      metadata := [{ source := "a.clw", type := "clw", title := none, category := none },
                   { source := "a.clw", type := "clw", title := none, category := none }] }
    c1Opts (by with_unfolding_all rfl) rfl rfl (fun c hc => rfl)
  simpa [c1Run2, c1Run1] using h

/-- C4 counterexample: a batch whose only chunk fails to embed (embedCalls = 1,
vectorCount = 0) returns errors = [] — the per-chunk error is logged but
NOT accumulated into the errors array, refuting the claim that per-chunk
errors are accumulated into errors[]. -/
theorem c4_counterexample :
    c4Run.embedCalls = 1 ∧ c4Run.stats.vectorCount = 0 ∧
      c4Run.stats.errors = [] ∧ c4Run.stats.success = true := by
  refine ⟨?_, ?_, ?_, ?_⟩ <;> with_unfolding_all rfl

/-- C4 witness: the amended theorem applied to a batch whose processor throws
an IO error for its single file. -/
theorem c4_amended_witness :
    (importFilesCore c4bEnv c4bSt ["b.clw"] {}).stats.success = true ∧
      ({ file := "b.clw", error := "IO error", retryable := true } : ImportError) ∈
        (importFilesCore c4bEnv c4bSt ["b.clw"] {}).stats.errors := by
  have h := c4_amended c4bEnv c4bSt ["b.clw"] {} rfl rfl rfl
  exact ⟨h.1, h.2 "b.clw" c4bProc "IO error" (by simp) rfl rfl⟩

/-- C5 witness: the theorem applied to a batch holding one `.xyz` file with
no registered processor. -/
theorem c5_witness :
    ({ file := "x.xyz", error := "No processor found for file type", retryable := false } :
        ImportError) ∈ (importFilesCore c5Env c5St ["x.xyz"] {}).stats.errors ∧
      (importFilesCore c5Env c5St ["x.xyz"] {}).stats.success = true ∧
      (importFilesCore c5Env c5St ["x.xyz"] {}).stats.filesProcessed =
        (["x.xyz"].countP fun q => fileProcessedOk c5Env {} q) ∧
      fileProcessedOk c5Env {} "x.xyz" = false :=
  c5_thm c5Env c5St ["x.xyz"] {} "x.xyz" (by simp) rfl rfl rfl rfl

/-- C8 counterexample: with invalid options (chunkSize = 100, overlapSize =
200, violating overlapSize < chunkSize) importFiles raises no
ConfigurationError: the processor is invoked, a chunk is embedded
(vectorCount = 1), state is mutated and the batch succeeds, refuting the
claim that invalid options are rejected before any file is processed. -/
theorem c8_counterexample :
    c8Run.processorCalls = 1 ∧ c8Run.stats.success = true ∧
      c8Run.stats.errors = [] ∧ c8Run.stats.vectorCount = 1 := by
  refine ⟨?_, ?_, ?_, ?_⟩ <;> with_unfolding_all rfl

/-- C8 witness: the amended theorem applied to the invalid-options run. -/
theorem c8_amended_witness :
    c8Run.processorCalls = (["a.clw"].countP fun q => (c8Env.getProcessor q).isSome) :=
  c8_amended c8Env c8St ["a.clw"] c8Opts 100 200 rfl rfl (by norm_num)

/-- C10 witness: the theorem applied to an empty batch (zero vectors: no
stats writes). -/
theorem c10_witness :
    (importFilesCore c10Env c10St [] {}).docStatsWritten = [] ∧
      (importFilesCore c10Env c10St [] {}).dbStatsUpdated = false :=
  (c10_thm c10Env c10St [] {}).1 rfl

/-- C7: when the persisted index file exists but fails to deserialize,
initialize recovers by creating a fresh empty index (count = 0, modelled
as no index points) and takes the warn-logging path, without propagating
a load failure. -/
theorem c7_thm (env : InitEnv) (st : VSState)
    (hready : st.ready = false) (hdb : env.dbInitOk = true) (hemb : env.embedderLoadOk = true)
    (hex : env.indexFileExists = true) (hload : env.indexLoadOk = false) :
    initStore env st = .ok ({ st with ready := true, indexPoints := [] }, true) := by
  unfold initStore
  rw [hready, hdb, hemb, hex, hload]
  simp

/-- C7 witness: the theorem applied to a concrete corrupt-index environment. -/
theorem c7_witness :
    initStore
        { dbInitOk := true, embedderLoadOk := true, indexFileExists := true
          indexLoadOk := false, loadedPoints := [(7, [1])] }
        { ready := false, indexPoints := [(3, [])], docs := [], nextId := 5 } =
      .ok ({ ready := true, indexPoints := [], docs := [], nextId := 5 }, true) :=
  c7_thm _ _ rfl rfl rfl rfl rfl

theorem searchOp_no_notInitialized (ienv : InitEnv) (env : SearchEnv) (st : VSState)
    (opts : SearchOptions) :
    (searchOp ienv env st opts).result ≠ Except.error SearchErr.notInitialized := by
  have hcore : ∀ st0, (searchCore env st0 opts).result ≠
      Except.error SearchErr.notInitialized := by
    intro st0
    unfold searchCore
    cases env.embedQuery with
    | none => simp
    | some qv =>
      simp only
      split <;> simp
  unfold searchOp
  split
  · exact hcore st
  · cases hinit : initStore ienv st with
    | error e => simp
    | ok p => exact hcore p.1

theorem closeOp_not_ready (st : VSState) (saveOk : Bool) (h : st.ready = false) :
    closeOp st saveOk = { st := st, indexSaved := false, dbClosed := false } := by
  unfold closeOp
  rw [h]
  simp

theorem initStore_ready_ok (env : InitEnv) (st : VSState) (h : st.ready = false)
    (hdb : env.dbInitOk = true) (hemb : env.embedderLoadOk = true) :
    ∃ q, initStore env st = .ok q := by
  unfold initStore
  rw [h, hdb, hemb]
  simp

theorem closeOp_clears_ready (st : VSState) (saveOk : Bool) (h : st.ready = true) :
    (closeOp st saveOk).st.ready = false := by
  unfold closeOp
  rw [h]
  by_cases h1 : 0 < st.indexPoints.length <;> by_cases h2 : saveOk = true <;>
    simp [h1, h2]

/-- C9 amended: close() clears the initialized flag, persists the index only
when it holds at least one point, and closes the metadata store when
persistence does not throw; a second close() is a no-op, and subsequent
search/importFiles calls never fail with NotInitializedError — they
lazily re-initialize instead. -/
theorem c9_amended (st : VSState) (saveOk : Bool) (ienv : InitEnv) (env : SearchEnv)
    (opts : SearchOptions) (ienv2 : ImportEnv) (paths : List String) (opts2 : ImportOptions)
    (hready : st.ready = true) (hdb : ienv.dbInitOk = true)
    (hemb : ienv.embedderLoadOk = true) :
    (closeOp st saveOk).st.ready = false ∧
    ((closeOp st saveOk).indexSaved = true → 0 < st.indexPoints.length) ∧
    (0 < st.indexPoints.length → saveOk = true → (closeOp st saveOk).indexSaved = true) ∧
    (saveOk = true → (closeOp st saveOk).dbClosed = true) ∧
    (closeOp (closeOp st saveOk).st saveOk =
      { st := (closeOp st saveOk).st, indexSaved := false, dbClosed := false }) ∧
    ((searchOp ienv env (closeOp st saveOk).st opts).result ≠
      Except.error SearchErr.notInitialized) ∧
    (∃ run, importFilesOp ienv ienv2 (closeOp st saveOk).st paths opts2 = .ok run) := by
  have hr := closeOp_clears_ready st saveOk hready
  refine ⟨hr, ?_, ?_, ?_, ?_, searchOp_no_notInitialized ienv env _ opts, ?_⟩
  · intro hsave
    unfold closeOp at hsave
    rw [hready] at hsave
    by_cases h1 : 0 < st.indexPoints.length
    · exact h1
    · by_cases h2 : saveOk = true <;> simp [h1, h2] at hsave
  · intro h1 h2
    unfold closeOp
    rw [hready]
    simp [h1, h2]
  · intro h2
    unfold closeOp
    rw [hready]
    by_cases h1 : 0 < st.indexPoints.length <;> simp [h1, h2]
  · exact closeOp_not_ready _ _ hr
  · obtain ⟨q, hq⟩ := initStore_ready_ok ienv _ hr hdb hemb
    unfold importFilesOp
    simp [hr, hq]

/-- C9 counterexample: after close(), a search call does not fail with
NotInitializedError — it lazily re-initializes and returns ok, refuting
the claim that every further operation fails with NotInitializedError. -/
theorem c9_counterexample :
    (searchOp
        { dbInitOk := true, embedderLoadOk := true, indexFileExists := false
          indexLoadOk := false, loadedPoints := [] }
        { embedQuery := some [], knn := fun _ => [], getDoc := fun _ => none }
        (closeOp { ready := true, indexPoints := [], docs := [], nextId := 0 } true).st
        {}).result = .ok [] ∧
    (searchOp
        { dbInitOk := true, embedderLoadOk := true, indexFileExists := false
          indexLoadOk := false, loadedPoints := [] }
        { embedQuery := some [], knn := fun _ => [], getDoc := fun _ => none }
        (closeOp { ready := true, indexPoints := [], docs := [], nextId := 0 } true).st
        {}).result ≠ .error SearchErr.notInitialized := by
  constructor
  · with_unfolding_all rfl
  · intro h
    rw [show (searchOp
        { dbInitOk := true, embedderLoadOk := true, indexFileExists := false
          indexLoadOk := false, loadedPoints := [] }
        { embedQuery := some [], knn := fun _ => [], getDoc := fun _ => none }
        (closeOp { ready := true, indexPoints := [], docs := [], nextId := 0 } true).st
        {}).result = .ok [] from by with_unfolding_all rfl] at h
    exact Except.noConfusion h

/-- C9 witness: the amended theorem applied to a concrete closed store. -/
theorem c9_amended_witness :
    (closeOp { ready := true, indexPoints := [], docs := [], nextId := 0 } true).st.ready =
      false := by
  have h := c9_amended { ready := true, indexPoints := [], docs := [], nextId := 0 } true
    { dbInitOk := true, embedderLoadOk := true, indexFileExists := false
      indexLoadOk := false, loadedPoints := [] }
    { embedQuery := some [], knn := fun _ => [], getDoc := fun _ => none } {}
    c10Env [] {} rfl rfl rfl
  exact h.1


end VectorDB
